import Mathlib

/-!
Shallow embedding of the bardi-rs projection engine (`src/lib.rs`) and
verification of its specification claims.

Modelling conventions:

* `rust_decimal::Decimal` is modelled as an exact rational `ℚ` (the spec treats
  values as exact decimals; every `Decimal` value is a rational).
* `u64` values are modelled as `Nat`, with arithmetic routed through checked
  operations (`checkedAdd`, `checkedSub`, `checkedMul`) that return `none`
  exactly when the Rust operation overflows/underflows, i.e. when a debug
  build panics. `none` therefore means "does not complete normally".
* The `while` loop inside `MutatorBase::unix_initial_event` has the guard
  `self.cycle > top || self.cycle < bottom`, which does not read the loop
  variable `ur_cpy`; the loop body only executes `ur_cpy += self.cycle`.
  Hence the loop runs zero iterations when the guard is false and never exits
  normally when it is true (in a release build it spins forever, in a debug
  build the repeated addition eventually overflows and panics). It is embedded
  as: guard true ↦ `none`, guard false ↦ fall through with `ur_cpy`
  unchanged.
* `MutatorBase::projection_length` is IEEE-754 `f64` arithmetic
  (`(1 as f64)/(cycle as f64)`, a cast of a `u64` to `f64`, a multiplication,
  and a truncating cast back). `StandardMutator.create_events` takes the
  function computed by it as an explicit parameter `plen`, so every theorem
  about `create_events` below holds for every possible value of that
  floating-point computation.
* Only the `StandardMutator` variant of the `Mutator` trait exists in the
  source, so `MutatorPool` holds `StandardMutator` values.
-/

namespace Bardi

/-- `rust_decimal::Decimal`, modelled as an exact rational. -/
abbrev Decimal := ℚ

/-- One beyond the largest `u64` value. -/
def u64Bound : Nat := 2 ^ 64

/-- `u64` addition with the debug-build overflow check: `none` means the Rust
operation panics. -/
def checkedAdd (a b : Nat) : Option Nat :=
  if a + b < u64Bound then some (a + b) else none

/-- `u64` subtraction with the debug-build underflow check: `none` means the
Rust operation panics. -/
def checkedSub (a b : Nat) : Option Nat :=
  if b ≤ a then some (a - b) else none

/-- `u64` multiplication with the debug-build overflow check: `none` means the
Rust operation panics. -/
def checkedMul (a b : Nat) : Option Nat :=
  if a * b < u64Bound then some (a * b) else none

/-- `u64::cmp` (`std::cmp::Ord` on unsigned integers). -/
def natCmp (a b : Nat) : Ordering :=
  if a < b then Ordering.lt else if a = b then Ordering.eq else Ordering.gt

/-- `Decimal::cmp` (total order on exact decimals). -/
def ratCmp (a b : ℚ) : Ordering :=
  if a < b then Ordering.lt else if a = b then Ordering.eq else Ordering.gt

/-- `AssetCapture` (lib.rs:86-89): immutable snapshot `{ value, idx }` of one
asset. -/
structure AssetCapture where
  value : Decimal
  idx : Nat
deriving DecidableEq

/-- `impl Ord for AssetCapture` (lib.rs:91-95): comparison is
`self.value.cmp(&other.value)` — by `value`, not by `idx`. -/
def AssetCapture.cmp (a b : AssetCapture) : Ordering :=
  ratCmp a.value b.value

/-- `AssetPool` (lib.rs:225-227): the arena of asset values in load order.
`Asset` is a plain `Cell<Decimal>`, so the pool is the list of current
values. -/
abbrev AssetPool := List Decimal

/-- `AssetPool::get` (lib.rs:241-245): bounds-checked lookup. -/
def AssetPool.get (pool : AssetPool) (idx : Nat) : Option Decimal :=
  pool.get? idx

/-- `AssetPool::mutate` (lib.rs:257-262): sets the asset at `idx` to `change`,
returning whether an asset was found there. -/
def AssetPool.mutate (pool : AssetPool) (idx : Nat) (change : Decimal) :
    Bool × AssetPool :=
  if idx < pool.length then (true, pool.set idx change) else (false, pool)

/-- `AssetPool::capture` (lib.rs:277-288): one `AssetCapture` per asset, in
index order. -/
def AssetPool.capture (pool : AssetPool) : List AssetCapture :=
  pool.enum.map fun p => ⟨p.2, p.1⟩

/-- Insertion step for the sort performed by `Vec::sort_unstable` under
`Ord for AssetCapture`, which orders captures by `value` (lib.rs:92-94). -/
def insertByValue (c : AssetCapture) : List AssetCapture → List AssetCapture
  | [] => [c]
  | x :: xs => if c.value ≤ x.value then c :: x :: xs else x :: insertByValue c xs

/-- `captures.sort_unstable()` as called by `AssetPool::reload` (lib.rs:294):
sorts by the `Ord` instance of `AssetCapture`, i.e. ascending by `value`.
(`sort_unstable` is deterministic only up to ties; the claims below apply it
to captures with pairwise distinct values, where every sort by `value` agrees
with this one.) -/
def sortByValue : List AssetCapture → List AssetCapture
  | [] => []
  | x :: xs => insertByValue x (sortByValue xs)

/-- `AssetPool::reload_unchecked` (lib.rs:304-312): loads the captures'
values into a fresh pool in the given order, discarding the captured
indices. -/
def AssetPool.reload_unchecked (captures : List AssetCapture) : AssetPool :=
  captures.map (·.value)

/-- `AssetPool::reload` (lib.rs:293-297): `captures.sort_unstable()` followed
by `reload_unchecked`. -/
def AssetPool.reload (captures : List AssetCapture) : AssetPool :=
  AssetPool.reload_unchecked (sortByValue captures)

/-- `Account` (lib.rs:113-115): the list of referenced asset indices. -/
abbrev Account := List Nat

/-- `Account::total_value` (lib.rs:132-141): fold over the referenced indices,
adding each asset's current value and `Decimal::ZERO` for a missing index
(`unwrap_or(Decimal::ZERO)`). -/
def Account.total_value (account : Account) (asset_pool : AssetPool) : Decimal :=
  account.foldl (fun accum next_id => accum + ((asset_pool.get next_id).getD 0)) 0

/-- `AccountPool` (lib.rs:143-145): arena of accounts in load order. -/
abbrev AccountPool := List Account

/-- `AccountPool::get` (lib.rs:174-178): `Some` of the account's total value,
`None` when no account exists at `idx`. -/
def AccountPool.get (accounts : AccountPool) (idx : Nat) (asset_pool : AssetPool) :
    Option Decimal :=
  (accounts.get? idx).map fun account => account.total_value asset_pool

/-- `MutatorBase` (lib.rs:326-334). `cycle_reciprocal` holds the `f64` value
`(1 as f64)/(cycle as f64)`; it is carried as an uninterpreted rational here
because no embedded operation reads it (see the header note on
`projection_length`). -/
structure MutatorBase where
  idx : Nat
  target_idx : Nat
  change : Decimal
  total_change : Decimal
  cycle : Nat
  cycle_reciprocal : ℚ
  unix_reference : Nat
deriving DecidableEq

/-- `MutatorBaseCapture` (lib.rs:315-318). -/
structure MutatorBaseCapture where
  total_change : Decimal
  idx : Nat
deriving DecidableEq

/-- `MutatorBase::capture` (lib.rs:346-348). -/
def MutatorBase.capture (m : MutatorBase) : MutatorBaseCapture :=
  ⟨m.total_change, m.idx⟩

/-- `MutatorBase::reset` (lib.rs:350-352): only `total_change` is assigned
from the capture. -/
def MutatorBase.reset (m : MutatorBase) (c : MutatorBaseCapture) : MutatorBase :=
  { m with total_change := c.total_change }

/-- `MutatorBase::unix_initial_event` (lib.rs:359-375).

```
let mut ur_cpy = self.unix_reference;
let top = start + self.cycle;
let bottom = start - self.cycle;
if self.unix_reference != start {
    while self.cycle > top || self.cycle < bottom {
        ur_cpy += self.cycle;
    }
};
if ur_cpy < start { ur_cpy += self.cycle; }
ur_cpy
```

The `while` guard never reads `ur_cpy`, so the loop runs zero iterations
(guard false) or never exits normally (guard true); the latter is `none`, as
is any `u64` overflow/underflow on the way (see the header). -/
def MutatorBase.unix_initial_event (m : MutatorBase) (start : Nat) : Option Nat := do
  let top ← checkedAdd start m.cycle
  let bottom ← checkedSub start m.cycle
  if m.unix_reference ≠ start ∧ (m.cycle > top ∨ m.cycle < bottom) then
    none
  else
    if m.unix_reference < start then
      checkedAdd m.unix_reference m.cycle
    else
      some m.unix_reference

/-- `StandardMutator` (lib.rs:392): the only `Mutator` variant; a newtype
around `MutatorBase`. -/
structure StandardMutator where
  base : MutatorBase
deriving DecidableEq

/-- `StandardMutator::on_event` (lib.rs:395-397): adds the fixed `change`. -/
def StandardMutator.on_event (m : StandardMutator) (ov : Decimal) : Decimal :=
  ov + m.base.change

/-- Body of one iteration of the event loop in
`StandardMutator::create_events` (lib.rs:422-428): the event at
`rie + cycle * i`, with checked `u64` arithmetic. -/
def mkEvent (base : MutatorBase) (rie idx i : Nat) : Option (Nat × Nat × Nat) := do
  let offset ← checkedMul base.cycle i
  let t ← checkedAdd rie offset
  some (t, idx, base.target_idx)

/-- `Event` (lib.rs:458-462). -/
structure Event where
  time_pos : Nat
  mutator_idx : Nat
  asset_idx : Nat
deriving DecidableEq

/-- `impl Ord for Event` (lib.rs:489-493): comparison is by `time_pos`
alone. -/
def Event.cmp (a b : Event) : Ordering :=
  natCmp a.time_pos b.time_pos

/-- `impl PartialEq for Event` (lib.rs:503-507): equality requires both
`time_pos` and `mutator_idx` to match (`asset_idx` is ignored). -/
def Event.eqRust (a b : Event) : Bool :=
  (a.time_pos == b.time_pos) && (a.mutator_idx == b.mutator_idx)

/-- `StandardMutator::create_events` (lib.rs:411-431), with the value of the
floating-point `projection_length` computation supplied as `plen` (see the
header). `endT` is the parameter named `end` in the source. -/
def StandardMutator.create_events (plen : Nat → Nat) (m : StandardMutator)
    (start endT idx : Nat) : Option (List Event) := do
  let window ← checkedSub endT start
  if m.base.cycle > window ∨ m.base.cycle = 0 then
    return []
  else
    let uie ← m.base.unix_initial_event start
    let rie ← checkedSub uie start
    (List.range (plen uie)).mapM fun i => do
      let e ← mkEvent m.base rie idx i
      some (⟨e.1, e.2.1, e.2.2⟩ : Event)

/-- `MutatorPool` (lib.rs:434-436), holding the one existing variant. -/
abbrev MutatorPool := List StandardMutator

/-- `MutatorPool::on_event` (lib.rs:444-448): `None` when no mutator exists at
`idx`, otherwise the mutator's transformed value. -/
def MutatorPool.on_event (mutators : MutatorPool) (idx : Nat) (asset_value : Decimal) :
    Option Decimal :=
  (mutators.get? idx).map fun m => m.on_event asset_value

/-- `Event::trigger` (lib.rs:469-478): look up the asset, then the mutator;
on either miss return `false` leaving the pool unchanged; otherwise write the
transformed value back and return `AssetPool::mutate`'s flag. -/
def Event.trigger (e : Event) (asset_pool : AssetPool) (mutator_pool : MutatorPool) :
    Bool × AssetPool :=
  match asset_pool.get e.asset_idx with
  | none => (false, asset_pool)
  | some value =>
    match mutator_pool.on_event e.mutator_idx value with
    | none => (false, asset_pool)
    | some new_value => asset_pool.mutate e.asset_idx new_value

/-! Helper lemmas, shared by the claim theorems below. -/

/-- Characterisation of `natCmp`: it returns `Ordering.eq` exactly on equal
arguments. -/
theorem natCmp_eq_iff (a b : Nat) : natCmp a b = Ordering.eq ↔ a = b := by
  unfold natCmp
  rcases Nat.lt_trichotomy a b with h | h | h
  · simp [h]
    omega
  · simp [h]
  · have h1 : ¬ a < b := by omega
    have h2 : a ≠ b := by omega
    simp [h1, h2]

/-- `Account.total_value`'s fold, generalised over the accumulator. -/
theorem total_value_foldl (l : List Nat) (pool : AssetPool) (init : Decimal) :
    l.foldl (fun accum next_id => accum + ((AssetPool.get pool next_id).getD 0)) init
      = init + (l.map fun i => (AssetPool.get pool i).getD 0).sum := by
  induction l generalizing init with
  | nil => simp
  | cons x xs ih => simp [List.foldl_cons, ih, add_assoc]

/-! Claim theorems. -/

/-- C1: the claimed capture/reload round-trip fails. `AssetPool::reload`
sorts the captures with `AssetCapture`'s `Ord`, which compares `value`
(lib.rs:92-94) even though `reload`'s doc comment says it sorts by `idx`.
For the pool `[2, 1]`, `capture` yields `[{value 2, idx 0}, {value 1, idx 1}]`
and `reload (capture pool)` yields the pool `[1, 2]`, whose entry at index 0
differs from the original pool's. -/
theorem reload_of_capture_scrambles_values :
    AssetPool.capture [(2 : Decimal), 1] = [⟨2, 0⟩, ⟨1, 1⟩] ∧
    AssetCapture.cmp ⟨2, 0⟩ ⟨1, 1⟩ = Ordering.gt ∧
    AssetPool.reload (AssetPool.capture [(2 : Decimal), 1]) = [(1 : Decimal), 2] ∧
    AssetPool.get (AssetPool.reload (AssetPool.capture [(2 : Decimal), 1])) 0 ≠
      AssetPool.get [(2 : Decimal), 1] 0 := by
  decide

/-- C2: `unix_initial_event` does not return the smallest `t0 ≥ start` with
`t0 ≡ R (mod C)`. With `C = 5`, `R = 100`, `start = 7` it returns `100`
although `10` already satisfies both conditions; with `C = 5`, `R = 0`,
`start = 7` it returns `5`, which is below `start`. -/
theorem unix_initial_event_not_first_trigger :
    (MutatorBase.unix_initial_event ⟨0, 0, 0, 0, 5, 1/5, 100⟩ 7 = some 100 ∧
      7 ≤ 10 ∧ 10 % 5 = 100 % 5 ∧ 10 < 100) ∧
    (MutatorBase.unix_initial_event ⟨0, 0, 0, 0, 5, 1/5, 0⟩ 7 = some 5 ∧ 5 < 7) := by
  decide

/-- C3: `create_events` does not terminate on the spec's own §8 window.
For `C = 3`, `R = 48`, `start = 50`, `end = 69` the loop guard in
`unix_initial_event` is `3 > 53 ∨ 3 < 47`, which is true and independent of
`ur_cpy`, so the loop never exits normally — for every possible value of the
floating-point `projection_length`. -/
theorem create_events_hangs_on_spec_window :
    ∀ plen : Nat → Nat,
      StandardMutator.create_events plen ⟨⟨0, 0, 100, 0, 3, 1/3, 48⟩⟩ 50 69 0 = none :=
  fun _ => rfl

/-- C5: `create_events` does not complete normally for `C = 5`, `R = 3`,
`start = 0`, `end = 100`: `unix_initial_event` computes `start - cycle`,
which underflows `u64` (a debug-build panic; in a release build the wrapped
`bottom` makes the non-terminating loop guard true), for every possible value
of the floating-point `projection_length`. -/
theorem create_events_panics_on_start_below_cycle :
    ∀ plen : Nat → Nat,
      StandardMutator.create_events plen ⟨⟨0, 0, 100, 0, 5, 1/5, 3⟩⟩ 0 100 0 = none :=
  fun _ => rfl

/-- C6: a degenerate rule generates no events: if `cycle = 0` or
`cycle > end - start`, `create_events` returns the empty event list (for
every value of the floating-point `projection_length`, which is never
reached). -/
theorem create_events_degenerate_cycle_empty :
    ∀ (plen : Nat → Nat) (m : StandardMutator) (start endT idx : Nat),
      start ≤ endT → (m.base.cycle = 0 ∨ endT - start < m.base.cycle) →
      StandardMutator.create_events plen m start endT idx = some [] := by
  intro plen m start endT idx hle hdeg
  unfold StandardMutator.create_events
  have hw : checkedSub endT start = some (endT - start) := by
    simp [checkedSub, hle]
  rw [hw]
  have hcond : m.base.cycle > endT - start ∨ m.base.cycle = 0 := by
    rcases hdeg with h | h
    · exact Or.inr h
    · exact Or.inl h
  simp [Option.bind, hcond]

/-- C6 witness: a cycle of length 0 on the window `[0, 10)` generates no
events. -/
theorem create_events_degenerate_cycle_empty_witness :
    StandardMutator.create_events (fun _ => 0) ⟨⟨0, 0, 0, 0, 0, 0, 0⟩⟩ 0 10 0 = some [] :=
  create_events_degenerate_cycle_empty (fun _ => 0) ⟨⟨0, 0, 0, 0, 0, 0, 0⟩⟩ 0 10 0
    (by decide) (Or.inl rfl)

/-- C7: `Event` comparison is by `time_pos` alone while `Event` equality
requires `time_pos` and `mutator_idx` to match, so two events can compare
`Ordering.eq` without being equal. -/
theorem event_ord_eq_asymmetry :
    (∀ a b : Event,
      (Event.cmp a b = Ordering.eq ↔ a.time_pos = b.time_pos) ∧
      (Event.eqRust a b = true ↔ a.time_pos = b.time_pos ∧ a.mutator_idx = b.mutator_idx)) ∧
    ∃ a b : Event, Event.cmp a b = Ordering.eq ∧ Event.eqRust a b = false := by
  refine ⟨fun a b => ⟨?_, ?_⟩, ⟨0, 0, 0⟩, ⟨0, 1, 0⟩, by decide, by decide⟩
  · simpa [Event.cmp] using natCmp_eq_iff a.time_pos b.time_pos
  · simp [Event.eqRust]

/-- C8: `Account.total_value` is the sum, over the account's referenced
asset indices, of the asset's current value, a missing index contributing
zero; and `AccountPool.get` is `none` exactly when no account exists at
`idx`, otherwise `some` of that total. -/
theorem account_aggregation_spec :
    (∀ (account : Account) (asset_pool : AssetPool),
      Account.total_value account asset_pool
        = (account.map fun i => (AssetPool.get asset_pool i).getD 0).sum) ∧
    ∀ (accounts : AccountPool) (idx : Nat) (asset_pool : AssetPool),
      AccountPool.get accounts idx asset_pool
        = (accounts.get? idx).map (fun account => Account.total_value account asset_pool) ∧
      (AccountPool.get accounts idx asset_pool = none ↔ accounts.get? idx = none) := by
  constructor
  · intro account asset_pool
    simpa [Account.total_value] using total_value_foldl account asset_pool 0
  · intro accounts idx asset_pool
    refine ⟨rfl, ?_⟩
    show (accounts.get? idx).map _ = none ↔ accounts.get? idx = none
    exact Option.map_eq_none'

/-- C9: `Event.trigger` returns `false` and leaves the asset pool unchanged
when the event's asset index or mutator index is missing from its pool; when
both are present it writes the mutator's transformed value to the target
asset, returns `true`, and leaves every other asset unchanged. -/
theorem event_trigger_spec :
    ∀ (e : Event) (asset_pool : AssetPool) (mutator_pool : MutatorPool),
      ((AssetPool.get asset_pool e.asset_idx = none ∨
          mutator_pool.get? e.mutator_idx = none) →
        Event.trigger e asset_pool mutator_pool = (false, asset_pool)) ∧
      ∀ (v : Decimal) (sm : StandardMutator),
        AssetPool.get asset_pool e.asset_idx = some v →
        mutator_pool.get? e.mutator_idx = some sm →
        Event.trigger e asset_pool mutator_pool
            = (true, asset_pool.set e.asset_idx (sm.on_event v)) ∧
        ∀ j : Nat, j ≠ e.asset_idx →
          AssetPool.get (asset_pool.set e.asset_idx (sm.on_event v)) j
            = AssetPool.get asset_pool j := by
  intro e ap mp
  constructor
  · intro h
    rcases h with h | h
    · simp [Event.trigger, h]
    · have h' : mp[e.mutator_idx]? = none := by
        rw [← List.get?_eq_getElem?]; exact h
      cases hv : AssetPool.get ap e.asset_idx with
      | none => simp [Event.trigger, hv]
      | some v => simp [Event.trigger, hv, MutatorPool.on_event, h']
  · intro v sm hv hm
    have hv' : ap.get? e.asset_idx = some v := hv
    have hlen : e.asset_idx < ap.length := (List.get?_eq_some.mp hv').1
    have hm' : mp[e.mutator_idx]? = some sm := by
      rw [← List.get?_eq_getElem?]; exact hm
    constructor
    · simp [Event.trigger, hv, MutatorPool.on_event, hm', AssetPool.mutate, hlen]
    · intro j hj
      show (ap.set e.asset_idx (sm.on_event v)).get? j = ap.get? j
      rw [List.get?_eq_getElem?, List.get?_eq_getElem?]
      exact List.getElem?_set_ne (Ne.symm hj)

/-- C9 witness: a singleton pool and a single additive mutator: the event
fires, `1` becomes `1 + 2 = 3`, and `true` is returned. -/
theorem event_trigger_spec_witness :
    Event.trigger ⟨7, 0, 0⟩ [(1 : Decimal)] [⟨⟨0, 0, 2, 0, 3, 1/3, 5⟩⟩]
      = (true, [(3 : Decimal)]) := by
  have h := ((event_trigger_spec ⟨7, 0, 0⟩ [(1 : Decimal)] [⟨⟨0, 0, 2, 0, 3, 1/3, 5⟩⟩]).2
      1 ⟨⟨0, 0, 2, 0, 3, 1/3, 5⟩⟩ rfl rfl).1
  have hval : ((1 : Decimal) + 2) = 3 := by norm_num
  simpa [StandardMutator.on_event, hval] using h

/-- C10: `MutatorBase.reset` assigns `total_change` from the capture and
leaves every other field (`idx`, `target_idx`, `change`, `cycle`,
`cycle_reciprocal`, `unix_reference`) unchanged; in particular resetting from
a mutator's own capture is the identity. -/
theorem mutator_base_reset_frame :
    ∀ (m : MutatorBase) (c : MutatorBaseCapture),
      (m.reset c).total_change = c.total_change ∧
      (m.reset c).idx = m.idx ∧
      (m.reset c).target_idx = m.target_idx ∧
      (m.reset c).change = m.change ∧
      (m.reset c).cycle = m.cycle ∧
      (m.reset c).cycle_reciprocal = m.cycle_reciprocal ∧
      (m.reset c).unix_reference = m.unix_reference ∧
      m.reset m.capture = m :=
  fun _ _ => ⟨rfl, rfl, rfl, rfl, rfl, rfl, rfl, rfl⟩

end Bardi
